import Mathlib

/-!
# Verification of the Vinted monitoring pipeline

Shallow embedding of the core pipeline of the repository
(`vinted_scraper.py`, `bot.py`, `proxy_manager.py`, `database.py`):
the incremental "new since last check" filter, the per-channel attribute
filter engine, proxy scoring/selection and result reporting, proxy-url
validation, the per-domain rate limiter, the two-path HTML parser, and the
subscription checkpoint store.

Conventions of the embedding:
* Python `float` values are modelled as `ℚ` (the claims under study only
  involve exact arithmetic and comparisons that no rounding can flip).
* `datetime` timestamps are modelled as integers (`ℤ`) on an abstract
  timeline; `ℚ` is used where fractional seconds matter (rate limiter).
* Python truthiness on an optional float (`if x:`) is `false` for both
  `None` and `0.0`; it is embedded explicitly wherever the source uses it.
* Randomness (`random.choices`) is modelled by an adversarially chosen
  index over the candidates that carry positive weight.
* Fallible code (`float(...)`, exceptions caught by a surrounding
  `try/except`) is modelled with `Option`/`Except`.
-/

namespace VintedBot

/-! ## String helpers

`str.lower()`, substring test (`in`), and a model of Python `float(str)`.
The `float` model covers sign, integer/fractional digits and an exponent;
CPython additionally strips whitespace and accepts `inf`/`nan`/underscores,
forms that play no role in the claims below.
-/

/-- Python `str.lower()` (ASCII-faithful). -/
def strLower (s : String) : String :=
  (s.toList.map Char.toLower).asString

/-- `needle` occurs at the start of `hay` (character lists). -/
def charsPrefixEq : List Char → List Char → Bool
  | [], _ => true
  | _ :: _, [] => false
  | a :: as, b :: bs => a = b && charsPrefixEq as bs

/-- `needle` occurs somewhere inside `hay` (character lists). -/
def charsContain (needle : List Char) : List Char → Bool
  | [] => needle.isEmpty
  | b :: bs => charsPrefixEq needle (b :: bs) || charsContain needle bs

/-- Python `needle in hay` on strings. -/
def strContains (hay needle : String) : Bool :=
  charsContain needle.toList hay.toList

/-- Numeric value of a decimal digit character. -/
def digitVal (c : Char) : ℕ := c.toNat - 48

/-- Natural number denoted by a list of decimal digits. -/
def natOfDigits (l : List Char) : ℕ :=
  l.foldl (fun a c => 10 * a + digitVal c) 0

/-- Parse an optional decimal exponent suffix (`e`/`E`, optional sign,
digits); `none` on malformed input, `some e` with the signed exponent
otherwise. The empty list yields exponent `0`. -/
def parseExponent : List Char → Option ℤ
  | [] => some 0
  | c :: rest =>
    if c = 'e' ∨ c = 'E' then
      let (sgn, ds) : ℤ × List Char :=
        match rest with
        | '-' :: r => (-1, r)
        | '+' :: r => (1, r)
        | r => (1, r)
      if ds ≠ [] ∧ ds.all Char.isDigit then some (sgn * natOfDigits ds) else none
    else none

/-- Model of Python `float(s)` on the decimal forms `[+-]ddd[.ddd][e[+-]ddd]`
(with at least one digit in the mantissa); `none` when the string is not a
number, which in the source raises `ValueError`. -/
def pyFloat (s : String) : Option ℚ :=
  let cs := s.toList
  let (sgn, cs1) : ℚ × List Char :=
    match cs with
    | '-' :: r => (-1, r)
    | '+' :: r => (1, r)
    | r => (1, r)
  let intPart := cs1.takeWhile Char.isDigit
  let rest1 := cs1.dropWhile Char.isDigit
  let (fracPart, rest2) : List Char × List Char :=
    match rest1 with
    | '.' :: r => (r.takeWhile Char.isDigit, r.dropWhile Char.isDigit)
    | r => ([], r)
  if intPart = [] ∧ fracPart = [] then none
  else
    match parseExponent rest2 with
    | none => none
    | some e =>
      let mantissa : ℚ :=
        ((natOfDigits intPart * 10 ^ fracPart.length + natOfDigits fracPart : ℕ) : ℚ) /
          ((10 ^ fracPart.length : ℕ) : ℚ)
      let scaled : ℚ :=
        if 0 ≤ e then mantissa * ((10 ^ e.toNat : ℕ) : ℚ)
        else mantissa / ((10 ^ (-e).toNat : ℕ) : ℚ)
      some (sgn * scaled)

/-! ## Listings and the incremental filter

`vinted_scraper.py`: a normalized listing record, and the strict
`published_at > last_check` filter of `get_new_listings` (lines 92–96).
-/

/-- A normalized listing as produced by the parser (the fields the claims
touch; `published_at` on the abstract integer timeline). -/
structure Listing where
  id : String
  title : String
  price : ℚ
  brand : String
  size : String
  condition : String
  publishedAt : ℤ
  deriving DecidableEq, Repr

/-- The incremental filter step of `get_new_listings`: with a checkpoint
supplied, keep exactly the listings whose `published_at` is strictly
greater than it; with no checkpoint the parsed list passes through. -/
def filterByLastCheck (listings : List Listing) (lastCheck : Option ℤ) : List Listing :=
  match lastCheck with
  | none => listings
  | some t => listings.filter (fun l => t < l.publishedAt)

/-! ## Attribute filter engine

`bot.py` `apply_filters` (lines 303–347): per-listing conjunction with
early exit, `float(filter_value)` may raise, the surrounding `try/except`
returns the input list on any exception.
-/

/-- A channel filter row (`filters` table: `filter_type`, `filter_value`). -/
structure ChannelFilter where
  filterType : String
  filterValue : String
  deriving DecidableEq, Repr

/-- One arm of the `for filter_item in filters` dispatch: `.ok true` keeps
the listing in play, `.ok false` is the `should_include = False; break`
path, `.error ()` is a raised exception (unparseable price value). -/
def evalFilter (f : ChannelFilter) (l : Listing) : Except Unit Bool :=
  if f.filterType = "price_min" then
    match pyFloat f.filterValue with
    | none => .error ()
    | some v => .ok (!(l.price < v))
  else if f.filterType = "price_max" then
    match pyFloat f.filterValue with
    | none => .error ()
    | some v => .ok (!(v < l.price))
  else if f.filterType = "brand" then
    .ok (strContains (strLower l.brand) (strLower f.filterValue))
  else if f.filterType = "size" then
    .ok (strLower f.filterValue = strLower l.size)
  else if f.filterType = "condition" then
    .ok (strContains (strLower l.condition) (strLower f.filterValue))
  else
    .ok true

/-- The inner filter loop for one listing: evaluate filters in order,
stopping at the first failure (`break`), propagating exceptions. -/
def listingPasses (filters : List ChannelFilter) (l : Listing) : Except Unit Bool :=
  match filters with
  | [] => .ok true
  | f :: fs =>
    match evalFilter f l with
    | .error e => .error e
    | .ok true => listingPasses fs l
    | .ok false => .ok false

/-- The outer loop over listings, in order; an exception aborts the whole
batch. -/
def runFilters (filters : List ChannelFilter) : List Listing → Except Unit (List Listing)
  | [] => .ok []
  | l :: ls =>
    match listingPasses filters l with
    | .error e => .error e
    | .ok b =>
      match runFilters filters ls with
      | .error e => .error e
      | .ok rest => .ok (if b then l :: rest else rest)

/-- `apply_filters`: empty filter set returns the input; otherwise run the
loops, and on any exception return the input list unchanged (the
`except` branch at the bottom of the function). -/
def apply_filters (filters : List ChannelFilter) (listings : List Listing) : List Listing :=
  if filters = [] then listings
  else
    match runFilters filters listings with
    | .ok r => r
    | .error _ => listings

/-- Specification-side satisfaction predicate for one filter, written from
the spec's words (§4.4): numeric compare for `price_min`/`price_max`,
case-insensitive substring for `brand`/`condition`, case-insensitive exact
match for `size`, unknown kinds never exclude. Used to compare the code's
`apply_filters` against the spec. -/
def satisfiesSpec (f : ChannelFilter) (l : Listing) : Bool :=
  if f.filterType = "price_min" then
    match pyFloat f.filterValue with
    | none => true
    | some v => v ≤ l.price
  else if f.filterType = "price_max" then
    match pyFloat f.filterValue with
    | none => true
    | some v => l.price ≤ v
  else if f.filterType = "brand" then
    strContains (strLower l.brand) (strLower f.filterValue)
  else if f.filterType = "size" then
    strLower f.filterValue = strLower l.size
  else if f.filterType = "condition" then
    strContains (strLower l.condition) (strLower f.filterValue)
  else
    true

/-- A listing satisfies every filter of the set (spec side). -/
def satisfiesAll (filters : List ChannelFilter) (l : Listing) : Bool :=
  filters.all (fun f => satisfiesSpec f l)

/-! ## Two-path parsing

`vinted_scraper.py` `parse_vinted_listings` (lines 105–144): scan `script`
tags for a `window.App` payload; the first one whose regex match decodes
becomes `vinted_data`; the primary path runs when `vinted_data` is truthy
(a non-empty dict) **and** has a `catalog` key, otherwise
`parse_html_listings` (the fallback) runs.
-/

/-- A raw catalog item as read defensively from the decoded JSON (the
fields `parse_item_data` consumes for the claims at hand). -/
structure RawItem where
  id : String
  title : String
  priceAmount : ℚ
  brandTitle : String
  sizeTitle : String
  status : String
  createdAtTs : Option ℤ
  deriving DecidableEq, Repr

/-- A decoded `window.App` JSON object: an optional `catalog.items` array
of raw items, plus the number of its other top-level keys (which decides
Python dict truthiness). -/
structure AppData where
  catalogItems : Option (List RawItem)
  otherKeysCount : ℕ

/-- One `<script>` tag as the parser sees it: whether its text holds the
`window.App` marker and the regex matches, and `some d` when `json.loads`
of the matched group succeeds with decoded payload `d`. -/
structure ScriptTag where
  hasAppMarker : Bool
  regexMatches : Bool
  decoded : Option AppData

/-- Python truthiness of the decoded dict: non-empty. -/
def AppData.pyTruthy (d : AppData) : Bool :=
  d.catalogItems.isSome || d.otherKeysCount ≠ 0

/-- The `for script in script_tags` loop: the first script with the marker
whose regex group decodes sets `vinted_data` and breaks; a decode failure
(`JSONDecodeError`) continues with the next script. -/
def findVintedData : List ScriptTag → Option AppData
  | [] => none
  | s :: rest =>
    if s.hasAppMarker && s.regexMatches then
      match s.decoded with
      | some d => some d
      | none => findVintedData rest
    else findVintedData rest

/-- The branch condition `if vinted_data and 'catalog' in vinted_data:`
selecting the primary path. -/
def usesPrimary (vd : Option AppData) : Bool :=
  match vd with
  | none => false
  | some d => d.pyTruthy && d.catalogItems.isSome

/-- Python `str.title()`: the first letter of every alphabetic run is
uppercased, the rest lowercased. -/
def pyTitle (s : String) : String :=
  (s.toList.foldl
    (fun (st : List Char × Bool) c =>
      if c.isAlpha then
        (st.1 ++ [if st.2 then Char.toLower c else Char.toUpper c], true)
      else (st.1 ++ [c], false))
    ([], false)).1.asString

/-- `get_condition_text` (lines 329–338): fixed code→text table with a
`replace('_', ' ').title()` default. -/
def get_condition_text (status : String) : String :=
  if status = "very_good" then "Very Good"
  else if status = "good" then "Good"
  else if status = "satisfactory" then "Satisfactory"
  else if status = "new_with_tags" then "New with Tags"
  else if status = "new_without_tags" then "New without Tags"
  else pyTitle ((status.toList.map (fun c => if c = '_' then ' ' else c)).asString)

/-- `parse_datetime` on an epoch-seconds timestamp: the timestamp itself
when present, the current time otherwise. -/
def parse_datetime (ts : Option ℤ) (now : ℤ) : ℤ :=
  ts.getD now

/-- `parse_item_data` restricted to the claim-relevant fields: normalize a
raw catalog item into a `Listing`. -/
def parse_item_data (item : RawItem) (now : ℤ) : Listing :=
  { id := item.id
    title := item.title
    price := item.priceAmount
    brand := item.brandTitle
    size := item.sizeTitle
    condition := get_condition_text item.status
    publishedAt := parse_datetime item.createdAtTs now }

/-- A candidate container of the fallback markup scan, holding the texts
the heuristic extractors produce for it; `innerParseFails` models the
per-container `try/except ... continue`. -/
structure HtmlContainer where
  id : String
  title : String
  price : ℚ
  brand : String
  size : String
  condition : String
  innerParseFails : Bool
  deriving DecidableEq, Repr

/-- `parse_html_listings` (lines 189–225): first 20 containers, keep those
that parse and have non-empty id and title; `published_at` is set to
`datetime.utcnow()` — the scan time, not the item's publication time. -/
def parse_html_listings (containers : List HtmlContainer) (now : ℤ) : List Listing :=
  ((containers.take 20).filter
      (fun c => !c.innerParseFails && c.id ≠ "" && c.title ≠ "")).map
    (fun c =>
      { id := c.id
        title := c.title
        price := c.price
        brand := c.brand
        size := c.size
        condition := c.condition
        publishedAt := now })

/-- `parse_vinted_listings`: the listing list together with a flag
recording whether the fallback markup scan ran. -/
def parse_vinted_listings (scripts : List ScriptTag) (containers : List HtmlContainer)
    (now : ℤ) : List Listing × Bool :=
  let vd := findVintedData scripts
  if usesPrimary vd then
    (((vd.bind (fun d => d.catalogItems)).getD []).map (fun item => parse_item_data item now),
      false)
  else
    (parse_html_listings containers now, true)

/-- Whether the fallback markup scan runs on a given response body. -/
def usedFallbackPath (scripts : List ScriptTag) : Bool :=
  (parse_vinted_listings scripts [] 0).2

/-! ## Rate limiter

`vinted_scraper.py` `apply_rate_limit` (lines 353–365): per-domain map of
last-request timestamps. The call captures `now`, sleeps for
`min_delay - (now - last)` when the elapsed time is short, and then stores
**the captured `now`** — not the post-sleep wake-up time — as the domain's
last request time. The model returns the moment the caller resumes (the
moment the HTTP request is issued) together with the updated map.
-/

/-- Look up a domain's recorded last-request time. -/
def lookupDomain (m : List (String × ℚ)) (domain : String) : Option ℚ :=
  (m.find? (fun p => p.1 = domain)).map Prod.snd

/-- Store a domain's last-request time (overwriting any previous entry). -/
def storeDomain (m : List (String × ℚ)) (domain : String) (t : ℚ) : List (String × ℚ) :=
  match m with
  | [] => [(domain, t)]
  | p :: rest => if p.1 = domain then (domain, t) :: rest else p :: storeDomain rest domain t

/-- `apply_rate_limit domain` entered at time `now`: returns the time at
which the caller resumes (and immediately issues its request) and the new
map. Faithful detail: the map records `now`, captured before the sleep. -/
def apply_rate_limit (m : List (String × ℚ)) (domain : String) (now minDelay : ℚ) :
    ℚ × List (String × ℚ) :=
  let resumeAt :=
    match lookupDomain m domain with
    | none => now
    | some last => if now - last < minDelay then last + minDelay else now
  (resumeAt, storeDomain m domain now)

/-- Run a sequence of fetches `(domain, arrival time)` through the rate
limiter, collecting each fetch's issue time. -/
def runRateLimiter (m : List (String × ℚ)) (minDelay : ℚ) :
    List (String × ℚ) → List ℚ
  | [] => []
  | (domain, arrival) :: rest =>
    let (issue, m2) := apply_rate_limit m domain arrival minDelay
    issue :: runRateLimiter m2 minDelay rest

/-! ## Proxy pool

`proxy_manager.py`: scoring and weighted selection (`select_best_proxy`,
lines 107–139), url validation and insertion (`add_proxy` lines 43–70,
`is_valid_proxy_url` lines 72–79), and result reporting
(`report_proxy_result`, lines 212–237).
-/

/-- One tracked proxy entry (the mutable fields the claims touch). -/
structure ProxyEntry where
  url : String
  successCount : ℕ
  failureCount : ℕ
  responseTime : Option ℚ
  isHealthy : Bool
  deriving DecidableEq, Repr

/-- `proxy_score`: success rate (optimistic `1.0` with no attempts) times
a response-time factor (`max(0.1, 1/(1+rt))`; `1.0` when the sample is
absent — or `0.0`, by Python truthiness, where the formula also gives
`1.0`). -/
def proxy_score (p : ProxyEntry) : ℚ :=
  let total := p.successCount + p.failureCount
  let successRate : ℚ := if total = 0 then 1 else (p.successCount : ℚ) / (total : ℚ)
  let responseTimeFactor : ℚ :=
    match p.responseTime with
    | none => 1
    | some rt => if rt ≠ 0 then max (1 / 10) (1 / (1 + rt)) else 1
  successRate * responseTimeFactor

/-- Stable descending insertion by `proxy_score` (an earlier entry stays
before a later entry of equal score, as Python's stable `sorted` with
`reverse=True` keeps it). -/
def insertByScoreDesc (p : ProxyEntry) : List ProxyEntry → List ProxyEntry
  | [] => [p]
  | q :: qs =>
    if proxy_score q ≤ proxy_score p then p :: q :: qs else q :: insertByScoreDesc p qs

/-- `sorted(healthy_proxies, key=proxy_score, reverse=True)`. -/
def sortByScoreDesc : List ProxyEntry → List ProxyEntry
  | [] => []
  | p :: ps => insertByScoreDesc p (sortByScoreDesc ps)

/-- The weight list `[3, 2, 1][:len(top_proxies)]`. -/
def selectionWeights (candidateCount : ℕ) : List ℕ :=
  [3, 2, 1].take candidateCount

/-- `select_best_proxy`, with `random.choices` modelled by an adversarial
index `pick`: the draw returns `top_proxies[pick % len(top_proxies)]`
(every candidate carries positive weight, so every index is reachable). -/
def select_best_proxy (healthyProxies : List ProxyEntry) (pick : ℕ) : Option ProxyEntry :=
  match healthyProxies with
  | [] => none
  | _ :: _ =>
    let sortedProxies := sortByScoreDesc healthyProxies
    let topProxies := sortedProxies.take (min 3 sortedProxies.length)
    topProxies.get? (pick % topProxies.length)

/-- `is_valid_proxy_url`: the url starts with one of the four recognized
transport schemes. -/
def is_valid_proxy_url (proxyUrl : String) : Bool :=
  charsPrefixEq "http://".toList proxyUrl.toList ||
  charsPrefixEq "https://".toList proxyUrl.toList ||
  charsPrefixEq "socks4://".toList proxyUrl.toList ||
  charsPrefixEq "socks5://".toList proxyUrl.toList

/-- The fresh `proxy_info` record `add_proxy` builds. -/
def newProxyInfo (proxyUrl : String) : ProxyEntry :=
  { url := proxyUrl
    successCount := 0
    failureCount := 0
    responseTime := none
    isHealthy := true }

/-- `add_proxy` acting on the pool's entry list `self.proxies`: reject an
invalid url leaving the list unchanged; otherwise append a fresh entry —
the source performs no duplicate check. Returns the function's boolean
result with the new list. -/
def add_proxy (pool : List ProxyEntry) (proxyUrl : String) : Bool × List ProxyEntry :=
  if is_valid_proxy_url proxyUrl then (true, pool ++ [newProxyInfo proxyUrl])
  else (false, pool)

/-- `report_proxy_result` acting on a tracked entry. On success: increment
the success counter, mark healthy, and — only for a truthy (non-zero)
response-time sample — fold it into the rolling average, halving with a
truthy stored value and replacing otherwise. On failure: increment the
failure counter and mark unhealthy once `failure_count > success_count + 3`. -/
def report_proxy_result (p : ProxyEntry) (success : Bool) (responseTime : Option ℚ) :
    ProxyEntry :=
  if success then
    let p1 := { p with successCount := p.successCount + 1, isHealthy := true }
    match responseTime with
    | none => p1
    | some rt =>
      if rt ≠ 0 then
        match p1.responseTime with
        | some old =>
          if old ≠ 0 then { p1 with responseTime := some ((old + rt) / 2) }
          else { p1 with responseTime := some rt }
        | none => { p1 with responseTime := some rt }
      else p1
  else
    let p1 := { p with failureCount := p.failureCount + 1 }
    if p1.successCount + 3 < p1.failureCount then { p1 with isHealthy := false }
    else p1

/-! ## Subscription checkpoints

`database.py`: `search_urls` rows with their `last_check` column;
`update_search_last_check` (lines 183–196) writes `CURRENT_TIMESTAMP`;
`add_search_url` inserts with `last_check DEFAULT CURRENT_TIMESTAMP`;
`remove_search_url` clears `is_active` only. The scheduler
(`bot.py` `monitor_vinted`, lines 264–301) calls
`update_search_last_check` after a successful scan and, on an error,
catches it and continues without touching the row. Operations are applied
at the database clock's current time, which never runs backward.
-/

/-- A `search_urls` row (the columns the claim touches). -/
structure SearchRow where
  id : ℕ
  lastCheck : ℤ
  isActive : Bool
  deriving DecidableEq, Repr

/-- `UPDATE search_urls SET last_check = CURRENT_TIMESTAMP WHERE id = ?`. -/
def update_search_last_check (rows : List SearchRow) (sid : ℕ) (now : ℤ) : List SearchRow :=
  rows.map (fun r => if r.id = sid then { r with lastCheck := now } else r)

/-- `INSERT INTO search_urls ...` (fresh row, `last_check` defaults to the
current timestamp). -/
def add_search_row (rows : List SearchRow) (sid : ℕ) (now : ℤ) : List SearchRow :=
  rows ++ [{ id := sid, lastCheck := now, isActive := true }]

/-- `UPDATE search_urls SET is_active = 0 WHERE id = ? AND channel_id = ?`
(the checkpoint column is untouched). -/
def remove_search_row (rows : List SearchRow) (sid : ℕ) : List SearchRow :=
  rows.map (fun r => if r.id = sid then { r with isActive := false } else r)

/-- The store operations a scheduler tick or a command can apply to the
`search_urls` table. `scanErrored` is the scheduler's per-subscription
`except ... continue` path, which performs no write. -/
inductive StoreOp where
  | addSearch (sid : ℕ)
  | tickOk (sid : ℕ)
  | removeSearch (sid : ℕ)
  | scanErrored (sid : ℕ)
  deriving DecidableEq, Repr

/-- Apply one operation at database time `t`. -/
def applyStoreOp (rows : List SearchRow) : StoreOp × ℤ → List SearchRow
  | (.addSearch sid, t) => add_search_row rows sid t
  | (.tickOk sid, t) => update_search_last_check rows sid t
  | (.removeSearch sid, _) => remove_search_row rows sid
  | (.scanErrored _, _) => rows

/-- Run a timed trace of store operations. -/
def runStoreTrace (rows : List SearchRow) : List (StoreOp × ℤ) → List SearchRow
  | [] => rows
  | step :: rest => runStoreTrace (applyStoreOp rows step) rest

/-- The checkpoint of subscription `sid` as the store reports it (the
first matching row, as a SQL lookup by primary key). -/
def getLastCheck (rows : List SearchRow) (sid : ℕ) : Option ℤ :=
  (rows.find? (fun r => r.id = sid)).map SearchRow.lastCheck

/-- The trace's timestamps are non-decreasing and start no earlier than
`t0` (the database clock never runs backward). -/
def ClockMono (t0 : ℤ) : List (StoreOp × ℤ) → Prop
  | [] => True
  | (_, t) :: rest => t0 ≤ t ∧ ClockMono t rest

/-! ## Concrete demonstration values used by witnesses -/

/-- A demonstration listing published at time `n`. -/
def demoListingAt (n : ℤ) : Listing :=
  { id := "1", title := "shirt", price := 10, brand := "Acme", size := "M",
    condition := "Good", publishedAt := n }

/-- The spec's filter scenario: `price_max = 50`, `brand = "nike"`. -/
def demoFilters : List ChannelFilter :=
  [{ filterType := "price_max", filterValue := "50" },
   { filterType := "brand", filterValue := "nike" }]

/-- The scenario listing that passes: price 40, brand "Nike Air". -/
def demoNikeAir : Listing :=
  { id := "2", title := "shoes", price := 40, brand := "Nike Air", size := "42",
    condition := "Very Good", publishedAt := 0 }

/-- The scenario listing that fails on `price_max`: price 60, brand "Nike". -/
def demoNike60 : Listing :=
  { id := "3", title := "shoes", price := 60, brand := "Nike", size := "42",
    condition := "Very Good", publishedAt := 0 }

/-- Scenario proxy A: 10 successes, 0 failures, 0.5 s response time. -/
def proxyA : ProxyEntry :=
  { url := "http://a", successCount := 10, failureCount := 0,
    responseTime := some (1 / 2), isHealthy := true }

/-- Scenario proxy B: 5 successes, 5 failures, 1 s response time. -/
def proxyB : ProxyEntry :=
  { url := "http://b", successCount := 5, failureCount := 5,
    responseTime := some 1, isHealthy := true }

/-- Scenario proxy C: no attempts yet, no response-time sample. -/
def proxyC : ProxyEntry :=
  { url := "http://c", successCount := 0, failureCount := 0,
    responseTime := none, isHealthy := true }

/-- A proxy entry with no recorded state at all (fresh). -/
def proxyFresh : ProxyEntry :=
  { url := "http://p", successCount := 0, failureCount := 0,
    responseTime := none, isHealthy := true }

/-- A proxy entry with history: 1 success, 4 failures, 4 s rolling time. -/
def proxyOld : ProxyEntry :=
  { url := "http://q", successCount := 1, failureCount := 4,
    responseTime := some 4, isHealthy := true }

/-- A pool holding one valid proxy. -/
def poolWithA : List ProxyEntry := [newProxyInfo "http://a"]

/-- A script whose `window.App` JSON decodes to a non-empty object that
has no `catalog` key. -/
def scriptNoCatalog : ScriptTag :=
  { hasAppMarker := true, regexMatches := true,
    decoded := some { catalogItems := none, otherKeysCount := 1 } }

/-- A script whose `window.App` JSON decodes with a `catalog.items` array. -/
def scriptWithCatalog : ScriptTag :=
  { hasAppMarker := true, regexMatches := true,
    decoded := some { catalogItems := some [], otherKeysCount := 0 } }

/-! ## Helper lemmas -/

/-- Inserting preserves length. -/
lemma length_insertByScoreDesc (p : ProxyEntry) (l : List ProxyEntry) :
    (insertByScoreDesc p l).length = l.length + 1 := by
  induction l with
  | nil => rfl
  | cons q qs ih =>
    simp only [insertByScoreDesc]
    split
    · simp
    · simp [ih]

/-- Sorting preserves length. -/
lemma length_sortByScoreDesc (l : List ProxyEntry) :
    (sortByScoreDesc l).length = l.length := by
  induction l with
  | nil => rfl
  | cons p ps ih => simp [sortByScoreDesc, length_insertByScoreDesc, ih]

/-- The executable prefix test agrees with `List.IsPrefix`. -/
lemma charsPrefixEq_iff (a b : List Char) : charsPrefixEq a b = true ↔ a <+: b := by
  induction a generalizing b with
  | nil => simp [charsPrefixEq]
  | cons x xs ih =>
    cases b with
    | nil => simp [charsPrefixEq]
    | cons y ys => simp [charsPrefixEq, ih, List.cons_prefix_cons]

/-- When every price filter's value parses, the per-filter dispatch agrees
with the spec-side satisfaction predicate and never raises. -/
lemma evalFilter_ok_of_parse (f : ChannelFilter) (l : Listing)
    (hf : f.filterType = "price_min" ∨ f.filterType = "price_max" →
      (pyFloat f.filterValue).isSome) :
    evalFilter f l = .ok (satisfiesSpec f l) := by
  unfold evalFilter satisfiesSpec
  split_ifs with h1 h2
  · obtain ⟨v, hv⟩ := Option.isSome_iff_exists.mp (hf (Or.inl h1))
    simp only [hv]
    rw [← decide_not]
    exact congrArg Except.ok (decide_eq_decide.mpr not_lt)
  · obtain ⟨v, hv⟩ := Option.isSome_iff_exists.mp (hf (Or.inr h2))
    simp only [hv]
    rw [← decide_not]
    exact congrArg Except.ok (decide_eq_decide.mpr not_lt)
  · rfl
  · rfl
  · rfl
  · rfl

/-- The inner loop computes the conjunction of the individual filters. -/
lemma listingPasses_eq (filters : List ChannelFilter) (l : Listing)
    (hp : ∀ f ∈ filters, f.filterType = "price_min" ∨ f.filterType = "price_max" →
      (pyFloat f.filterValue).isSome) :
    listingPasses filters l = .ok (satisfiesAll filters l) := by
  induction filters with
  | nil => rfl
  | cons f fs ih =>
    simp only [listingPasses]
    rw [evalFilter_ok_of_parse f l (hp f (by simp))]
    cases hs : satisfiesSpec f l
    · simp [satisfiesAll, hs]
    · simp only [satisfiesAll, List.all_cons, hs, Bool.true_and]
      exact ih (fun g hg => hp g (by simp [hg]))

/-- The outer loop computes `List.filter` of the conjunction. -/
lemma runFilters_eq (filters : List ChannelFilter) (listings : List Listing)
    (hp : ∀ f ∈ filters, f.filterType = "price_min" ∨ f.filterType = "price_max" →
      (pyFloat f.filterValue).isSome) :
    runFilters filters listings = .ok (listings.filter (fun l => satisfiesAll filters l)) := by
  induction listings with
  | nil => rfl
  | cons l ls ih =>
    simp only [runFilters]
    rw [listingPasses_eq filters l hp, ih]
    cases hb : satisfiesAll filters l <;> simp [List.filter_cons, hb]

/-! ## Claims -/

/-- C1: with a checkpoint `T` supplied, the incremental filter keeps
exactly the parsed listings with `published_at > T`; equality with `T` is
excluded and `T + 1` is included (strict greater-than boundary). -/
theorem C1_incremental_filter_strict (listings : List Listing) (T : ℤ) :
    (∀ l, l ∈ filterByLastCheck listings (some T) ↔ l ∈ listings ∧ T < l.publishedAt) ∧
    (∀ l ∈ listings, l.publishedAt = T → l ∉ filterByLastCheck listings (some T)) ∧
    (∀ l ∈ listings, l.publishedAt = T + 1 → l ∈ filterByLastCheck listings (some T)) := by
  refine ⟨?_, ?_, ?_⟩
  · intro l
    simp [filterByLastCheck, List.mem_filter]
  · intro l hl he
    simp [filterByLastCheck, List.mem_filter, he]
  · intro l hl he
    simp only [filterByLastCheck, List.mem_filter]
    exact ⟨hl, by simp [he]⟩

/-- Witness for C1 at checkpoint `100`: the listing published at `101` is
kept, the one published exactly at `100` is dropped. -/
theorem C1_incremental_filter_strict_witness :
    demoListingAt 101 ∈ filterByLastCheck [demoListingAt 100, demoListingAt 101] (some 100) ∧
    demoListingAt 100 ∉ filterByLastCheck [demoListingAt 100, demoListingAt 101] (some 100) :=
  ⟨(C1_incremental_filter_strict [demoListingAt 100, demoListingAt 101] 100).2.2
      (demoListingAt 101) (by simp) (by decide),
   (C1_incremental_filter_strict [demoListingAt 100, demoListingAt 101] 100).2.1
      (demoListingAt 100) (by simp) (by decide)⟩

/-- C2: when every active price filter's value parses as a number, the
attribute filter keeps a listing iff it satisfies every active filter
(prices compared numerically, brand/condition by case-insensitive
substring, size by case-insensitive equality); an unknown filter kind
never excludes; the empty filter set returns the input unchanged. -/
theorem C2_attribute_filter_semantics (filters : List ChannelFilter) (listings : List Listing)
    (hp : ∀ f ∈ filters, f.filterType = "price_min" ∨ f.filterType = "price_max" →
      (pyFloat f.filterValue).isSome) :
    apply_filters filters listings = listings.filter (fun l => satisfiesAll filters l) ∧
    (∀ l, l ∈ apply_filters filters listings ↔
      l ∈ listings ∧ ∀ f ∈ filters, satisfiesSpec f l = true) ∧
    apply_filters [] listings = listings ∧
    (∀ (f : ChannelFilter) (l : Listing),
      f.filterType ∉ ["price_min", "price_max", "brand", "size", "condition"] →
      evalFilter f l = .ok true) := by
  have hmain : apply_filters filters listings =
      listings.filter (fun l => satisfiesAll filters l) := by
    by_cases hfil : filters = []
    · subst hfil
      simp [apply_filters, satisfiesAll]
    · unfold apply_filters
      rw [if_neg hfil, runFilters_eq filters listings hp]
  refine ⟨hmain, ?_, by simp [apply_filters], ?_⟩
  · intro l
    rw [hmain]
    simp [List.mem_filter, satisfiesAll, List.all_eq_true]
  · intro f l hunk
    simp only [List.mem_cons, List.mem_singleton, not_or, List.not_mem_nil] at hunk
    unfold evalFilter
    simp [hunk.1, hunk.2.1, hunk.2.2.1, hunk.2.2.2.1, hunk.2.2.2.2]

/-- Witness for C2 on the spec's scenario: `price_max = 50`, `brand =
"nike"`; the 40-euro "Nike Air" listing passes, the 60-euro "Nike" one is
dropped by `price_max`. -/
theorem C2_attribute_filter_semantics_witness :
    apply_filters demoFilters [demoNikeAir, demoNike60] = [demoNikeAir] := by
  have h := (C2_attribute_filter_semantics demoFilters [demoNikeAir, demoNike60]
    (by with_unfolding_all decide)).1
  rw [h]
  with_unfolding_all decide

/-- C10: an exception while evaluating the filter set — in particular a
price filter whose stored value does not parse as a number, reached while
checking a listing — makes `apply_filters` return the input list
unchanged, excluding nothing and propagating nothing. -/
theorem C10_filter_exception_returns_input :
    (∀ (filters : List ChannelFilter) (listings : List Listing),
      runFilters filters listings = .error () →
      apply_filters filters listings = listings) ∧
    (∀ (v : String) (fs : List ChannelFilter) (l : Listing) (ls : List Listing),
      pyFloat v = none →
      runFilters ({ filterType := "price_min", filterValue := v } :: fs) (l :: ls) =
        .error ()) := by
  constructor
  · intro filters listings herr
    unfold apply_filters
    by_cases hfil : filters = []
    · rw [if_pos hfil]
    · rw [if_neg hfil, herr]
  · intro v fs l ls hv
    simp [runFilters, listingPasses, evalFilter, hv]

/-- Witness for C10: the unparseable `price_min = "abc"` filter makes the
whole batch pass through unchanged. -/
theorem C10_filter_exception_returns_input_witness :
    pyFloat "abc" = none ∧
    apply_filters [{ filterType := "price_min", filterValue := "abc" }]
      [demoNikeAir, demoNike60] = [demoNikeAir, demoNike60] := by
  have hv : pyFloat "abc" = none := by with_unfolding_all decide
  exact ⟨hv, C10_filter_exception_returns_input.1 _ _
    (C10_filter_exception_returns_input.2 "abc" [] demoNikeAir [demoNike60] hv)⟩

/-- C3: with a non-empty healthy pool, the selected proxy is always one of
the top 3 entries by descending score; the scenario proxies score
A = 2/3, B = 1/4, C = 1, rank `[C, A, B]`, and the draw weights are
`3, 2, 1`. -/
theorem C3_proxy_scoring_and_selection (healthyProxies : List ProxyEntry) (pick : ℕ)
    (h : healthyProxies ≠ []) :
    (∃ p, select_best_proxy healthyProxies pick = some p ∧
        p ∈ (sortByScoreDesc healthyProxies).take 3) ∧
    proxy_score proxyA = 2 / 3 ∧ proxy_score proxyB = 1 / 4 ∧ proxy_score proxyC = 1 ∧
    sortByScoreDesc [proxyA, proxyB, proxyC] = [proxyC, proxyA, proxyB] ∧
    selectionWeights 3 = [3, 2, 1] := by
  refine ⟨?_, by with_unfolding_all decide, by with_unfolding_all decide,
    by with_unfolding_all decide, by with_unfolding_all decide, rfl⟩
  obtain ⟨q, qs, rfl⟩ := List.exists_cons_of_ne_nil h
  set s := sortByScoreDesc (q :: qs) with hs
  have hlen : s.length = qs.length + 1 := by
    rw [hs, length_sortByScoreDesc, List.length_cons]
  have htake : s.take (min 3 s.length) = s.take 3 := by
    rw [← List.take_take, List.take_length]
  have htlen : (s.take (min 3 s.length)).length = min 3 s.length := by
    rw [List.length_take]
    omega
  have htpos : 0 < (s.take (min 3 s.length)).length := by
    rw [htlen]
    omega
  have hmod : pick % (s.take (min 3 s.length)).length < (s.take (min 3 s.length)).length :=
    Nat.mod_lt _ htpos
  refine ⟨(s.take (min 3 s.length)).get ⟨_, hmod⟩, ?_, ?_⟩
  · simp only [select_best_proxy, ← hs]
    exact List.get?_eq_get hmod
  · rw [← htake]
    exact List.get_mem _ _ _

/-- Witness for C3 on the scenario pool `[A, B, C]`. -/
theorem C3_proxy_scoring_and_selection_witness :
    (∃ p, select_best_proxy [proxyA, proxyB, proxyC] 0 = some p ∧
        p ∈ (sortByScoreDesc [proxyA, proxyB, proxyC]).take 3) ∧
    proxy_score proxyA = 2 / 3 ∧ proxy_score proxyB = 1 / 4 ∧ proxy_score proxyC = 1 ∧
    sortByScoreDesc [proxyA, proxyB, proxyC] = [proxyC, proxyA, proxyB] ∧
    selectionWeights 3 = [3, 2, 1] :=
  C3_proxy_scoring_and_selection [proxyA, proxyB, proxyC] 0 (by decide)

/-- C4 (code bug): with `min_delay = 2` and same-host fetches arriving at
times 0, 1 and 3 (each ≥ the previous issue time, so the trace is a
realizable back-to-back sequence), the requests are issued at times
0, 2 and 3 — the last two only 1 second apart, less than the minimum
delay — because `apply_rate_limit` records the pre-sleep arrival time,
not the time the request is actually issued. Fetches to a different host
are meanwhile not delayed at all. -/
theorem C4_rate_limiter_issue_times :
    runRateLimiter [] 2 [("h", 0), ("h", 1), ("h", 3)] = [0, 2, 3] ∧
    ¬ ((2 : ℚ) + 2 ≤ 3) ∧
    runRateLimiter [] 2 [("h1", 0), ("h2", 0)] = [0, 0] := by
  with_unfolding_all decide

/-- Counterexample to C5: a response whose `window.App` marker is present
and whose JSON decodes successfully (to a non-empty object without a
`catalog` key) still runs the fallback markup scan. -/
theorem C5_counterexample :
    scriptNoCatalog.hasAppMarker = true ∧ scriptNoCatalog.regexMatches = true ∧
    (scriptNoCatalog.decoded).isSome = true ∧
    usedFallbackPath [scriptNoCatalog] = true :=
  ⟨rfl, rfl, rfl, rfl⟩

/-- C5 amended: the fallback markup scan is skipped exactly when some
script's `window.App` JSON decodes to a non-empty object containing the
`catalog` key; it runs when the marker is absent, the JSON fails to
decode, or the decoded payload is empty or lacks `catalog`. Which path
runs does not depend on the markup containers or the scan time. -/
theorem C5_amended_fallback_condition (scripts : List ScriptTag) :
    (usedFallbackPath scripts = false ↔
      ∃ d, findVintedData scripts = some d ∧ d.pyTruthy = true ∧
        d.catalogItems.isSome = true) ∧
    (∀ (containers : List HtmlContainer) (now : ℤ),
      (parse_vinted_listings scripts containers now).2 = usedFallbackPath scripts) := by
  constructor
  · unfold usedFallbackPath parse_vinted_listings
    cases h : findVintedData scripts with
    | none => simp [usesPrimary, h]
    | some d =>
      simp only [usesPrimary, h]
      by_cases ht : d.pyTruthy = true
      · by_cases hc : d.catalogItems.isSome = true
        · simp [ht, hc]
        · simp [ht, hc]
      · simp [ht]
  · intro containers now
    unfold usedFallbackPath parse_vinted_listings
    cases hb : usesPrimary (findVintedData scripts) <;> simp [hb]

/-- Witness for C5 amended: with a decoded catalog payload the fallback
does not run. -/
theorem C5_amended_fallback_condition_witness :
    usedFallbackPath [scriptWithCatalog] = false :=
  (C5_amended_fallback_condition [scriptWithCatalog]).1.mpr ⟨_, rfl, rfl, rfl⟩

/-- Counterexample to C6: reporting a success with response-time sample
`0.0` on an entry with no stored sample leaves the stored rolling time
absent instead of making it the new sample — Python's `if response_time:`
treats the `0.0` sample as missing. -/
theorem C6_counterexample :
    (report_proxy_result proxyFresh true (some 0)).responseTime = none ∧
    (report_proxy_result proxyFresh true (some 0)).responseTime ≠ some 0 := by
  with_unfolding_all decide

/-- C6 amended: on success the success counter increments, and a
**non-zero** response-time sample updates the rolling time to
`(old + new) / 2` when a non-zero old sample exists and to the new sample
otherwise, while a missing or zero sample leaves it unchanged; on failure
the failure counter increments and the entry is marked unhealthy as soon
as failures exceed successes by more than 3, immediately, and is left
as it was below that threshold. -/
theorem C6_amended_report_result (p : ProxyEntry) (rt : Option ℚ) :
    (report_proxy_result p true rt).successCount = p.successCount + 1 ∧
    (∀ r : ℚ, r ≠ 0 →
      (∀ old, p.responseTime = some old → old ≠ 0 →
        (report_proxy_result p true (some r)).responseTime = some ((old + r) / 2)) ∧
      ((p.responseTime = none ∨ p.responseTime = some 0) →
        (report_proxy_result p true (some r)).responseTime = some r)) ∧
    ((rt = none ∨ rt = some 0) →
      (report_proxy_result p true rt).responseTime = p.responseTime) ∧
    (report_proxy_result p false rt).failureCount = p.failureCount + 1 ∧
    (p.successCount + 3 < p.failureCount + 1 →
      (report_proxy_result p false rt).isHealthy = false) ∧
    (¬ p.successCount + 3 < p.failureCount + 1 →
      (report_proxy_result p false rt).isHealthy = p.isHealthy) := by
  refine ⟨?_, ?_, ?_, ?_, ?_, ?_⟩
  · unfold report_proxy_result
    cases rt with
    | none => simp
    | some r =>
      by_cases hr : r = 0
      · simp [hr]
      · cases hpr : p.responseTime with
        | none => simp [hr, hpr]
        | some old => by_cases ho : old = 0 <;> simp [hr, hpr, ho]
  · intro r hr
    constructor
    · intro old hold holdne
      simp [report_proxy_result, hold, hr, holdne]
    · rintro (hn | hz)
      · simp [report_proxy_result, hn, hr]
      · simp [report_proxy_result, hz, hr]
  · rintro (hn | hz)
    · simp [report_proxy_result, hn]
    · simp [report_proxy_result, hz]
  · simp only [report_proxy_result, Bool.false_eq_true, if_false]
    split_ifs <;> rfl
  · intro hthr
    simp [report_proxy_result, hthr]
  · intro hthr
    simp [report_proxy_result, hthr]

/-- Witness for C6 amended: with stored sample 4 s, a success with a 2 s
sample yields `(4 + 2) / 2 = 3`; a failure on the entry with 1 success and
4 failures (so 5 failures > 1 success + 3) marks it unhealthy at once. -/
theorem C6_amended_report_result_witness :
    (report_proxy_result proxyOld true (some 2)).responseTime = some 3 ∧
    (report_proxy_result proxyOld false none).isHealthy = false := by
  constructor
  · have h := ((C6_amended_report_result proxyOld (some 2)).2.1 2 (by norm_num)).1 4 rfl
      (by norm_num)
    rw [h]
    norm_num
  · exact (C6_amended_report_result proxyOld none).2.2.2.2.1 (by decide)

/-- Counterexample to C7: adding a url already present in the pool is not
a no-op — the source has no duplicate check, so a second, fresh entry is
appended. -/
theorem C7_counterexample :
    (add_proxy poolWithA "http://a").2 = poolWithA ++ [newProxyInfo "http://a"] ∧
    (add_proxy poolWithA "http://a").2 ≠ poolWithA := by
  with_unfolding_all decide

/-- C7 amended: `add_proxy` accepts a url iff it starts with one of the
transport prefixes `http://`, `https://`, `socks4://`, `socks5://`; an
invalid url is rejected with the pool unchanged, and a valid url — present
already or not — is appended as a fresh entry. -/
theorem C7_amended_add_proxy (pool : List ProxyEntry) (u : String) :
    ((add_proxy pool u).1 = true ↔
      ("http://".toList <+: u.toList ∨ "https://".toList <+: u.toList ∨
       "socks4://".toList <+: u.toList ∨ "socks5://".toList <+: u.toList)) ∧
    (is_valid_proxy_url u = false → add_proxy pool u = (false, pool)) ∧
    (is_valid_proxy_url u = true → add_proxy pool u = (true, pool ++ [newProxyInfo u])) := by
  refine ⟨?_, ?_, ?_⟩
  · have h1 : (add_proxy pool u).1 = is_valid_proxy_url u := by
      unfold add_proxy
      split <;> simp [*]
    rw [h1]
    unfold is_valid_proxy_url
    simp [charsPrefixEq_iff, Bool.or_eq_true, or_assoc]
  · intro hval
    simp [add_proxy, hval]
  · intro hval
    simp [add_proxy, hval]

/-- Witness for C7 amended: an `ftp://` url is rejected leaving the pool
unchanged; a `socks5://` url is appended. -/
theorem C7_amended_add_proxy_witness :
    add_proxy poolWithA "ftp://x" = (false, poolWithA) ∧
    add_proxy poolWithA "socks5://x" = (true, poolWithA ++ [newProxyInfo "socks5://x"]) :=
  ⟨(C7_amended_add_proxy poolWithA "ftp://x").2.1 (by decide),
   (C7_amended_add_proxy poolWithA "socks5://x").2.2 (by decide)⟩

/-! ## Checkpoint monotonicity (C8) -/

/-- Unfolding `getLastCheck` over a cons cell. -/
lemma getLastCheck_cons (r : SearchRow) (rows : List SearchRow) (sid : ℕ) :
    getLastCheck (r :: rows) sid =
      if r.id = sid then some r.lastCheck else getLastCheck rows sid := by
  unfold getLastCheck
  by_cases h : r.id = sid
  · rw [List.find?_cons_of_pos _ (by simp [h]), if_pos h]
    rfl
  · rw [List.find?_cons_of_neg _ (by simp [h]), if_neg h]

/-- A checkpoint visible in the table stays visible (with the same value)
after appending rows — `find?` returns the first match. -/
lemma getLastCheck_append_of_found (rows extra : List SearchRow) (sid : ℕ) (v : ℤ)
    (h : getLastCheck rows sid = some v) :
    getLastCheck (rows ++ extra) sid = some v := by
  induction rows with
  | nil => simp [getLastCheck] at h
  | cons r rs ih =>
    rw [List.cons_append, getLastCheck_cons]
    rw [getLastCheck_cons] at h
    by_cases hid : r.id = sid
    · rw [if_pos hid]
      rw [if_pos hid] at h
      exact h
    · rw [if_neg hid]
      rw [if_neg hid] at h
      exact ih h

/-- Effect of `update_search_last_check` on a checkpoint lookup. -/
lemma getLastCheck_update (rows : List SearchRow) (sid2 : ℕ) (t : ℤ) (sid : ℕ) :
    getLastCheck (update_search_last_check rows sid2 t) sid =
      if sid = sid2 then (getLastCheck rows sid).map (fun _ => t)
      else getLastCheck rows sid := by
  induction rows with
  | nil => simp [update_search_last_check, getLastCheck]
  | cons r rs ih =>
    simp only [update_search_last_check, List.map_cons]
    simp only [update_search_last_check] at ih
    by_cases h2 : r.id = sid2
    · by_cases hs : r.id = sid
      · have hss : sid = sid2 := by rw [← hs, h2]
        simp [h2, hs, hss, getLastCheck_cons, ih]
      · have hss : ¬ sid = sid2 := fun hEq => hs (by rw [h2, ← hEq])
        have hss2 : ¬ sid2 = sid := fun hEq => hss hEq.symm
        simp [h2, hs, hss, hss2, getLastCheck_cons, ih]
    · by_cases hs : r.id = sid
      · have hss : ¬ sid = sid2 := fun hEq => h2 (by rw [hs, hEq])
        have hss2 : ¬ sid2 = sid := fun hEq => hss hEq.symm
        simp [h2, hs, hss, hss2, getLastCheck_cons, ih]
      · simp [h2, hs, getLastCheck_cons, ih]

/-- `remove_search_url` never touches the checkpoint column. -/
lemma getLastCheck_remove (rows : List SearchRow) (sid2 sid : ℕ) :
    getLastCheck (remove_search_row rows sid2) sid = getLastCheck rows sid := by
  induction rows with
  | nil => rfl
  | cons r rs ih =>
    simp only [remove_search_row, List.map_cons]
    simp only [remove_search_row] at ih
    by_cases h2 : r.id = sid2
    · by_cases hs : r.id = sid
      · have hss : sid = sid2 := by rw [← hs, h2]
        simp [h2, hs, hss, getLastCheck_cons, ih]
      · have hss : ¬ sid = sid2 := fun hEq => hs (by rw [h2, ← hEq])
        have hss2 : ¬ sid2 = sid := fun hEq => hss hEq.symm
        simp [h2, hs, hss, hss2, getLastCheck_cons, ih]
    · by_cases hs : r.id = sid
      · have hss : ¬ sid = sid2 := fun hEq => h2 (by rw [hs, hEq])
        have hss2 : ¬ sid2 = sid := fun hEq => hss hEq.symm
        simp [h2, hs, hss, hss2, getLastCheck_cons, ih]
      · simp [h2, hs, getLastCheck_cons, ih]

/-- A looked-up checkpoint value belongs to some row of the table. -/
lemma exists_of_getLastCheck (rows : List SearchRow) (sid : ℕ) (v : ℤ)
    (h : getLastCheck rows sid = some v) : ∃ r ∈ rows, r.lastCheck = v := by
  unfold getLastCheck at h
  cases hf : rows.find? (fun r => r.id = sid) with
  | none => rw [hf] at h; simp at h
  | some r =>
    rw [hf] at h
    simp at h
    exact ⟨r, List.mem_of_find?_eq_some hf, h⟩

/-- Every store operation applied at time `t` keeps all checkpoints ≤ `t`,
provided they were ≤ `t` before. -/
lemma bound_applyStoreOp (rows : List SearchRow) (op : StoreOp) (t : ℤ)
    (hb : ∀ r ∈ rows, r.lastCheck ≤ t) :
    ∀ r ∈ applyStoreOp rows (op, t), r.lastCheck ≤ t := by
  intro r hr
  cases op with
  | addSearch sid2 =>
    simp only [applyStoreOp, add_search_row, List.mem_append, List.mem_singleton] at hr
    rcases hr with hr | hr
    · exact hb r hr
    · rw [hr]
  | tickOk sid2 =>
    simp only [applyStoreOp, update_search_last_check, List.mem_map] at hr
    obtain ⟨r0, hr0, rfl⟩ := hr
    by_cases h : r0.id = sid2 <;> simp [h, hb r0 hr0]
  | removeSearch sid2 =>
    simp only [applyStoreOp, remove_search_row, List.mem_map] at hr
    obtain ⟨r0, hr0, rfl⟩ := hr
    by_cases h : r0.id = sid2 <;> simp [h, hb r0 hr0]
  | scanErrored sid2 =>
    exact hb r hr

/-- One store operation applied at a time `t` no earlier than every stored
checkpoint can only keep a subscription's checkpoint or move it forward to
`t`. -/
lemma getLastCheck_applyStoreOp (rows : List SearchRow) (op : StoreOp) (t : ℤ)
    (hb : ∀ r ∈ rows, r.lastCheck ≤ t) (sid : ℕ) (old : ℤ)
    (hold : getLastCheck rows sid = some old) :
    ∃ mid, getLastCheck (applyStoreOp rows (op, t)) sid = some mid ∧ old ≤ mid := by
  cases op with
  | addSearch sid2 =>
    refine ⟨old, ?_, le_refl old⟩
    simpa [applyStoreOp, add_search_row] using
      getLastCheck_append_of_found rows _ sid old hold
  | tickOk sid2 =>
    by_cases hs : sid = sid2
    · refine ⟨t, ?_, ?_⟩
      · show getLastCheck (update_search_last_check rows sid2 t) sid = some t
        rw [getLastCheck_update, if_pos hs, hold]
        rfl
      · obtain ⟨r, hr, hrv⟩ := exists_of_getLastCheck rows sid old hold
        rw [← hrv]
        exact hb r hr
    · refine ⟨old, ?_, le_refl old⟩
      show getLastCheck (update_search_last_check rows sid2 t) sid = some old
      rw [getLastCheck_update, if_neg hs]
      exact hold
  | removeSearch sid2 =>
    refine ⟨old, ?_, le_refl old⟩
    show getLastCheck (remove_search_row rows sid2) sid = some old
    rw [getLastCheck_remove]
    exact hold
  | scanErrored sid2 =>
    exact ⟨old, hold, le_refl old⟩

/-- C8: along any timed trace of store operations whose clock never runs
backward (and starts no earlier than every stored checkpoint), a
subscription's `last_check` is monotonically non-decreasing: every write
sets it to the current time, and no operation — including a tick whose
scan errored — ever moves it backward. -/
theorem C8_checkpoint_monotone (rows : List SearchRow) (t0 : ℤ) (trace : List (StoreOp × ℤ))
    (hb : ∀ r ∈ rows, r.lastCheck ≤ t0) (hc : ClockMono t0 trace) (sid : ℕ) (old new : ℤ)
    (hold : getLastCheck rows sid = some old)
    (hnew : getLastCheck (runStoreTrace rows trace) sid = some new) :
    old ≤ new := by
  induction trace generalizing rows t0 old with
  | nil =>
    simp only [runStoreTrace] at hnew
    rw [hold] at hnew
    exact le_of_eq (Option.some.inj hnew)
  | cons step rest ih =>
    obtain ⟨op, t⟩ := step
    obtain ⟨ht0, hcrest⟩ := hc
    have hb2 : ∀ r ∈ rows, r.lastCheck ≤ t := fun r hr => le_trans (hb r hr) ht0
    obtain ⟨mid, hmid, hle⟩ := getLastCheck_applyStoreOp rows op t hb2 sid old hold
    simp only [runStoreTrace] at hnew
    exact le_trans hle
      (ih (applyStoreOp rows (op, t)) t (bound_applyStoreOp rows op t hb2) hcrest mid hmid hnew)

/-- A single subscription row checkpointed at time 10. -/
def demoRows : List SearchRow := [{ id := 1, lastCheck := 10, isActive := true }]

/-- A trace: successful tick at 12, errored scan at 15, successful tick
at 20. -/
def demoTrace : List (StoreOp × ℤ) :=
  [(.tickOk 1, 12), (.scanErrored 1, 15), (.tickOk 1, 20)]

/-- Witness for C8 on a concrete trace including an errored scan. -/
theorem C8_checkpoint_monotone_witness :
    getLastCheck demoRows 1 = some 10 ∧
    getLastCheck (runStoreTrace demoRows demoTrace) 1 = some 20 ∧ (10 : ℤ) ≤ 20 :=
  ⟨by decide, by decide,
    C8_checkpoint_monotone demoRows 10 demoTrace (by decide) (by norm_num [ClockMono])
      1 10 20 (by decide) (by decide)⟩

/-- C9: every listing the fallback markup parse produces carries
`published_at = ` the scan time itself, so with any checkpoint earlier
than the scan time the incremental filter drops none of them. -/
theorem C9_fallback_listings_survive_filter (containers : List HtmlContainer)
    (now T : ℤ) (hT : T < now) :
    (∀ l ∈ parse_html_listings containers now, l.publishedAt = now) ∧
    filterByLastCheck (parse_html_listings containers now) (some T) =
      parse_html_listings containers now := by
  have hall : ∀ l ∈ parse_html_listings containers now, l.publishedAt = now := by
    intro l hl
    simp only [parse_html_listings, List.mem_map] at hl
    obtain ⟨c, hc, rfl⟩ := hl
    rfl
  refine ⟨hall, ?_⟩
  unfold filterByLastCheck
  rw [List.filter_eq_self]
  intro l hl
  rw [hall l hl]
  exact decide_eq_true hT

/-- A well-formed fallback candidate container. -/
def demoContainer : HtmlContainer :=
  { id := "7", title := "bag", price := 5, brand := "", size := "",
    condition := "", innerParseFails := false }

/-- Witness for C9: checkpoint 10, scan time 50 — the fallback-parsed
listing passes the incremental filter. -/
theorem C9_fallback_listings_survive_filter_witness :
    filterByLastCheck (parse_html_listings [demoContainer] 50) (some 10) =
      parse_html_listings [demoContainer] 50 :=
  (C9_fallback_listings_survive_filter [demoContainer] 50 10 (by decide)).2

end VintedBot
